import Mathlib

/-!
Shallow embedding of conswol (src/main.rs): the diagnostic-extraction
engine (read_compiler_messages), the build executor's result handling
(execute_build_cmd), the build-request handler (handle_build_request),
and the orchestration loop's per-cycle selection recomputation and
build-channel absorption (the tail of main's loop body).

Modelling conventions:
* Rust strings are `List Char`; match offsets index characters.
* Rust byte buffers (process stdout/stderr) are `List Nat` (bytes).
* `u32`/`u16`/`usize` are `Nat`; `i32` is `Int` (the values the claims
  concern stay far from the 32-bit boundaries); the one cast whose
  wrapping behaviour matters, `as usize` applied to a possibly negative
  `i32` on a 64-bit target, is modelled exactly by `i32_as_usize`.
* A Rust expression that can panic is modelled with an `Option` result,
  `none` standing for a panic (which kills the builder thread); a Rust
  `Result` propagated with the question-mark operator is an `Except Unit`.
* `regex::Regex::captures_iter` is abstracted as a function
  `List Char -> List RCaptures` supplied as a parameter: one entry per
  match in left-to-right order, each entry the list of capture groups
  (group 0 the whole match), `none` for a group that did not participate.
* `HashMap<String, MessageSeverity>` is an association list with
  case-sensitive key lookup.
* `std::sync::mpsc` channels are modelled by their buffered contents
  (a list of undelivered messages) plus a closed flag.
-/

/-- Severity enum from main.rs. -/
inductive MessageSeverity where
  | Error
  | Warning
  | Other
deriving DecidableEq

/-- One capture-group span: a half-open character range of the input. -/
structure Span where
  start : Nat
  stop : Nat
deriving DecidableEq

/-- Model of `regex::Captures`: capture groups by index, `none` when the
group did not participate in the match. Group 0 is the full match. -/
abbrev RCaptures := List (Option Span)

/-- `Captures::get`: group lookup by index. -/
def capGet (c : RCaptures) (i : Nat) : Option Span := c.getD i none

/-- Slicing a Rust string by a half-open offset range, on the
character-level model. -/
def sliceStr (s : List Char) (a b : Nat) : List Char := (s.drop a).take (b - a)

/-- CommandConfig from main.rs. -/
structure CommandConfig where
  working_dir : List Char
  command : List Char
  args : List (List Char)
deriving DecidableEq

/-- ProblemMatcher from main.rs (the PatternMatcherSpec). Group indices
are u16 in the source, modelled as Nat; the severity-mapper HashMap is an
association list (keys unique, lookup case-sensitive). -/
structure ProblemMatcher where
  regex : List Char
  file_group : Option Nat
  line_group : Option Nat
  col_group : Option Nat
  severity_group : Option Nat
  severity_mapper : Option (List (List Char × MessageSeverity))
deriving DecidableEq

/-- CompilerMessage from main.rs (the Diagnostic of the spec). -/
structure CompilerMessage where
  severity : Option MessageSeverity
  line : Option Nat
  col : Option Nat
  file : Option (List Char)
  content : List Char
deriving DecidableEq

/-- BuildResults from main.rs. `ret_code` is an i32 in the source. -/
structure BuildResults where
  ret_code : Int
  messages : List CompilerMessage
deriving DecidableEq

/-- BuildState from main.rs. -/
inductive BuildState where
  | NoBuild
  | InProgress
  | InvocationFailed
  | Finished (results : BuildResults)
deriving DecidableEq

/-- A UTF-8 continuation byte (0x80-0xBF). -/
def isCont (b : Nat) : Bool := decide (0x80 ≤ b ∧ b ≤ 0xBF)

/-- Validating UTF-8 decoder, the model of `String::from_utf8` and
`std::str::from_utf8`: rejects stray continuation bytes, truncated
sequences, overlong encodings, surrogates and code points above
U+10FFFF, exactly as Rust's validation does. -/
def utf8Decode : List Nat → Option (List Char)
  | [] => some []
  | b0 :: rest =>
    if b0 < 0x80 then
      (utf8Decode rest).map (Char.ofNat b0 :: ·)
    else if 0xC2 ≤ b0 ∧ b0 ≤ 0xDF then
      match rest with
      | b1 :: rest2 =>
        if isCont b1 then
          (utf8Decode rest2).map
            (Char.ofNat ((b0 - 0xC0) * 0x40 + (b1 - 0x80)) :: ·)
        else none
      | [] => none
    else if 0xE0 ≤ b0 ∧ b0 ≤ 0xEF then
      match rest with
      | b1 :: b2 :: rest2 =>
        if ((if b0 = 0xE0 then 0xA0 else 0x80) ≤ b1 ∧
            b1 ≤ (if b0 = 0xED then 0x9F else 0xBF)) ∧ isCont b2 then
          (utf8Decode rest2).map
            (Char.ofNat ((b0 - 0xE0) * 0x1000 + (b1 - 0x80) * 0x40 +
              (b2 - 0x80)) :: ·)
        else none
      | _ => none
    else if 0xF0 ≤ b0 ∧ b0 ≤ 0xF4 then
      match rest with
      | b1 :: b2 :: b3 :: rest2 =>
        if ((if b0 = 0xF0 then 0x90 else 0x80) ≤ b1 ∧
            b1 ≤ (if b0 = 0xF4 then 0x8F else 0xBF)) ∧ isCont b2 ∧ isCont b3 then
          (utf8Decode rest2).map
            (Char.ofNat ((b0 - 0xF0) * 0x40000 + (b1 - 0x80) * 0x1000 +
              (b2 - 0x80) * 0x40 + (b3 - 0x80)) :: ·)
        else none
      | _ => none
    else none

/-- Decimal-digit accumulator for parseU32; `none` on a non-digit. -/
def parseDigits : List Char → Nat → Option Nat
  | [], acc => some acc
  | ch :: rest, acc =>
    if '0' ≤ ch ∧ ch ≤ '9' then
      parseDigits rest (acc * 10 + (ch.toNat - '0'.toNat))
    else none

/-- Model of `str::parse::<u32>`: an optional leading plus sign, then one
or more decimal digits, value within the u32 range. -/
def parseU32 (s : List Char) : Option Nat :=
  let body := match s with
    | '+' :: rest => rest
    | other => other
  match body with
  | [] => none
  | _ =>
    match parseDigits body 0 with
    | some v => if v < 4294967296 then some v else none
    | none => none

/-- Fallback severity resolution (no severity_mapper present):
case-insensitive comparison with "error" / "warning", anything else
absent. -/
def severityFallback (capText : List Char) : Option MessageSeverity :=
  if capText.map Char.toLower = "error".toList then some MessageSeverity.Error
  else if capText.map Char.toLower = "warning".toList then some MessageSeverity.Warning
  else none

/-- Severity resolution for one match. The outer `none` models the panic
of `severity_mapper.get(cap_text).unwrap()` when the mapper is present
but lacks the captured text; otherwise `some s` where `s` is the
(optional) severity of the diagnostic. -/
def resolveSeverity (combined : List Char) (pm : ProblemMatcher)
    (cap : RCaptures) : Option (Option MessageSeverity) :=
  match pm.severity_group with
  | some g =>
    match capGet cap g with
    | some ma =>
      let capText := sliceStr combined ma.start ma.stop
      match pm.severity_mapper with
      | some mapper => (List.lookup capText mapper).map some
      | none => some (severityFallback capText)
    | none => some none
  | none => some none

/-- A numeric field (line or col): slice the group's captured text and
parse it as u32; an undeclared group, a non-participating group or a
failed parse all yield an absent field. -/
def extractNumField (combined : List Char) (g : Option Nat) (cap : RCaptures) :
    Option Nat :=
  match g with
  | some g0 =>
    match capGet cap g0 with
    | some ma => parseU32 (sliceStr combined ma.start ma.stop)
    | none => none
  | none => none

/-- The file field: the file group's captured text as a path. -/
def extractFileField (combined : List Char) (g : Option Nat) (cap : RCaptures) :
    Option (List Char) :=
  match g with
  | some g0 => (capGet cap g0).map (fun ma => sliceStr combined ma.start ma.stop)
  | none => none

/-- The end offset of the current message: the start of the next match's
group 0, or the end of the whole output for the last match. `none`
models the source's unwrap panic if the next match had no group 0. -/
def nextMatchEnd (combined : List Char) (rest : List RCaptures) : Option Nat :=
  match rest with
  | [] => some combined.length
  | cap2 :: _ => (capGet cap2 0).map Span.start

/-- The per-match loop of read_compiler_messages. `none` models a panic
anywhere in the loop (a missing group 0 or a missing severity-mapper
entry), which kills the builder thread and discards every message. -/
def extractLoop (combined : List Char) (pm : ProblemMatcher) :
    List RCaptures → Option (List CompilerMessage)
  | [] => some []
  | cap :: rest =>
    (capGet cap 0).bind fun fullMatch =>
    (nextMatchEnd combined rest).bind fun mEnd =>
    (resolveSeverity combined pm cap).bind fun severity =>
    (extractLoop combined pm rest).bind fun msgs =>
    some ({ severity := severity
          , line := extractNumField combined pm.line_group cap
          , col := extractNumField combined pm.col_group cap
          , file := extractFileField combined pm.file_group cap
          , content := sliceStr combined fullMatch.start mEnd } :: msgs)

/-- The matcher-present / matcher-absent dispatch of
read_compiler_messages: with no ProblemMatcher, a single message dumping
the whole combined output. -/
def extractMessages (combined : List Char) (pm : Option ProblemMatcher)
    (caps : List RCaptures) : Option (List CompilerMessage) :=
  match pm with
  | some p => extractLoop combined p caps
  | none =>
    some [{ severity := none, line := none, col := none, file := none
          , content := combined }]

/-- read_compiler_messages from main.rs: decode stdout and stderr (each
propagating invalid UTF-8 as `Except.error`), concatenate stdout then
stderr, and extract. The compiled regex is abstracted by `matcher` (the
source's `Regex::new` error would also surface as `Except.error`). The
outer `none` models a panic inside the match loop. -/
def read_compiler_messages (stdoutB stderrB : List Nat) (pm : Option ProblemMatcher)
    (matcher : List Char → List RCaptures) :
    Option (Except Unit (List CompilerMessage)) :=
  match utf8Decode stdoutB, utf8Decode stderrB with
  | some so, some se =>
    (extractMessages (so ++ se) pm (matcher (so ++ se))).map Except.ok
  | _, _ => some (Except.error ())

/-- The Ok(output) branch of execute_build_cmd's builder thread: the
messages come from read_compiler_messages via `unwrap_or_default` (an
extraction `Err` degrades to the empty list) and `ret_code` is
`status.code().unwrap()` (an absent exit code, e.g. death by a signal,
panics). `none` models a builder-thread panic: no Finished is sent. -/
def execute_build_outcome (stdoutB stderrB : List Nat) (pm : Option ProblemMatcher)
    (matcher : List Char → List RCaptures) (exitCode : Option Int) :
    Option BuildState :=
  match read_compiler_messages stdoutB stderrB pm matcher with
  | none => none
  | some r =>
    let messages := match r with
      | Except.ok m => m
      | Except.error _ => []
    match exitCode with
    | some c => some (BuildState.Finished { ret_code := c, messages := messages })
    | none => none

/-- The full message sequence sent on the builder channel by
execute_build_cmd: InProgress first, then InvocationFailed on spawn
failure, the Finished outcome on success, or nothing further at all if
the builder thread panicked (the channel then closes with no terminal
state ever delivered). -/
def execute_build_cmd (spawnOk : Bool) (stdoutB stderrB : List Nat)
    (pm : Option ProblemMatcher) (matcher : List Char → List RCaptures)
    (exitCode : Option Int) : List BuildState :=
  BuildState.InProgress ::
    (if spawnOk then
      match execute_build_outcome stdoutB stderrB pm matcher exitCode with
      | some bs => [bs]
      | none => []
    else [BuildState.InvocationFailed])

/-- handle_build_request from main.rs: `some ()` stands for the spawn of
a fresh executor with a fresh channel (the returned receiver); `none`
means no executor is spawned (no build command configured, or a build
already InProgress). The build state itself is never written. -/
def handle_build_request (build_cmd : Option CommandConfig) (bs : BuildState) :
    Option Unit :=
  match build_cmd with
  | some _ =>
    match bs with
    | BuildState.InProgress => none
    | _ => some ()
  | none => none

/-- The Ctrl+b branch of the key loop in main: `builder_rx` is replaced
wholesale by the result of handle_build_request; `build_state` is not
written. The pair is (build_state, builder_rx). -/
def ctrlB_step (build_cmd : Option CommandConfig)
    (st : BuildState × Option Unit) : BuildState × Option Unit :=
  (st.1, handle_build_request build_cmd st.1)

/-- The cast `as usize` applied to an i32 value on a 64-bit target:
sign-extend to 64 bits and reinterpret. 18446744073709551616 is 2 to
the 64th. -/
def i32_as_usize (i : Int) : Nat := (i % (18446744073709551616 : Int)).toNat

/-- The per-cycle selection recomputation in main: only a Finished state
recomputes; an empty message list clears the selection; otherwise a
negative cursor counter gets the length added once (no true modulo), a
non-negative counter is reduced mod the length; the result is stored
back into the cursor counter and cast `as usize` into
`selected_message`. Returns (selected_message, last_selection_idx). -/
def recomputeSelection (bs : BuildState) (selected : Option Nat) (idx : Int) :
    Option Nat × Int :=
  match bs with
  | BuildState.Finished results =>
    let n := results.messages.length
    if n = 0 then (none, idx)
    else
      let idx2 := if idx < 0 then (n : Int) + idx else idx % (n : Int)
      (some (i32_as_usize idx2), idx2)
  | _ => (selected, idx)

/-- Result of the end-of-cycle build-channel step. `blocked` means the
blocking `recv()` does not return this cycle: the loop iteration stalls
until the builder sends a message or drops its sender. -/
inductive AbsorbResult where
  | blocked
  | done (bs : BuildState) (rxKept : Bool)
deriving DecidableEq

/-- The end-of-cycle build-channel step in main, with the channel
modelled by its buffered messages and a closed flag. `recv()` returns
the first buffered message even on a closed channel; on an empty closed
channel it returns Err, upon which `builder_rx` is dropped and the state
left unchanged; on an empty open channel it blocks. With no receiver
held, the step does nothing. -/
def absorbStep (bs : BuildState) (hasRx : Bool) (pending : List BuildState)
    (chClosed : Bool) : AbsorbResult :=
  if hasRx then
    match pending with
    | m :: _ => AbsorbResult.done m true
    | [] =>
      if chClosed then AbsorbResult.done bs false
      else AbsorbResult.blocked
  else AbsorbResult.done bs false

/-- Modelled from the spec (the next-match-start rule of C7): given the
match start offsets, content i is the input sliced from offset i to
offset i+1, the last content running to the end of the input. -/
def specContents (combined : List Char) : List Nat → List (List Char)
  | [] => []
  | [o] => [sliceStr combined o combined.length]
  | o1 :: o2 :: rest => sliceStr combined o1 o2 :: specContents combined (o2 :: rest)

/-- A minimal message for concrete examples. -/
def blankMsg : CompilerMessage :=
  { severity := none, line := none, col := none, file := none, content := [] }

/-- A ProblemMatcher declaring no capture groups, for concrete
examples. -/
def pmPlain : ProblemMatcher :=
  { regex := [], file_group := none, line_group := none, col_group := none
  , severity_group := none, severity_mapper := none }

/-- C8: with no ProblemMatcher supplied, extraction yields exactly one
message whose content is the whole raw output and whose severity, line,
col and file fields are all absent. -/
theorem c8_no_matcher_single_dump (combined : List Char) (caps : List RCaptures) :
    extractMessages combined none caps =
      some [{ severity := none, line := none, col := none, file := none
            , content := combined }] := rfl

/-- C1: with a severity_mapper present whose table lacks the captured
text, the match loop panics (modelled by `none`): extraction aborts, the
diagnostic and all remaining diagnostics are lost, instead of the
severity merely being absent. Here the mapper maps only "error", the
first match's severity group captures "ERR", and a second,
unproblematic match is discarded along with the first. -/
theorem c1_missing_mapper_entry_panics :
    extractLoop "ERR a ok b".toList
      { regex := [], file_group := none, line_group := none, col_group := none
      , severity_group := some 1
      , severity_mapper := some [("error".toList, MessageSeverity.Error)] }
      [[some { start := 0, stop := 5 }, some { start := 0, stop := 3 }],
       [some { start := 6, stop := 10 }, none]] = none := by decide

/-- C2: at message-list length 5 and cursor counter -6 the recomputation
does not produce the floored modulo (which is 4): it computes
5 + (-6) = -1, stores -1 back into the cursor, and casts -1 `as usize`,
yielding selected index 18446744073709551615 — far outside [0, 5). -/
theorem c2_negative_counter_cast_bug :
    recomputeSelection
        (BuildState.Finished { ret_code := 0, messages := List.replicate 5 blankMsg })
        none (-6) = (some 18446744073709551615, -1) ∧
      (18446744073709551615 : Nat) ≠ ((-6 : Int) % (5 : Int)).toNat := by
  constructor
  · decide
  · decide

/-- C3 counterexample: with the build channel closed and no buffered
message, the loop merely drops the receiver and leaves BuildState as
InProgress; it does not replace the state with InvocationFailed. -/
theorem c3_counterexample_closed_channel_still_in_progress :
    absorbStep BuildState.InProgress true [] true =
        AbsorbResult.done BuildState.InProgress false ∧
      AbsorbResult.done BuildState.InProgress false ≠
        AbsorbResult.done BuildState.InvocationFailed false := by decide

/-- C3 (amended): when the build channel is found closed with no
buffered message, the loop drops the receiver and leaves BuildState
unchanged, whatever it is — in particular a build abandoned without a
terminal message stays stuck InProgress. -/
theorem c3_amended_closed_channel_keeps_state (bs : BuildState) :
    absorbStep bs true [] true = AbsorbResult.done bs false := rfl

/-- C10: with an outstanding build that has not yet sent any message and
a still-open channel, the end-of-cycle step blocks: the loop's
`recv()` call stalls key handling and redraw until the build sends
something, so the cycle does not complete non-blockingly as claimed. -/
theorem c10_recv_blocks_on_silent_build :
    absorbStep BuildState.InProgress true [] false = AbsorbResult.blocked := rfl

/-- C9: a build request while InProgress is rejected: handle_build_request
spawns nothing (returns no receiver), and the Ctrl+b step leaves
BuildState unchanged (it only rebinds builder_rx). -/
theorem c9_request_while_in_progress_rejected (build_cmd : Option CommandConfig)
    (rx : Option Unit) :
    ctrlB_step build_cmd (BuildState.InProgress, rx) = (BuildState.InProgress, none) ∧
      handle_build_request build_cmd BuildState.InProgress = none := by
  cases build_cmd <;> exact ⟨rfl, rfl⟩

/-- C4 counterexample: on invalid UTF-8 output (the byte 0xFF) the build
still finishes with the real exit code but with an empty diagnostics
list — not with exactly one placeholder diagnostic. -/
theorem c4_counterexample_empty_not_placeholder :
    execute_build_outcome [255] [] none (fun _ => []) (some 0) =
      some (BuildState.Finished { ret_code := 0, messages := [] }) ∧
    (BuildResults.mk 0 []).messages.length ≠ 1 := ⟨rfl, by decide⟩

/-- C4 (amended): when extraction returns Err (e.g. a decode error), the
executor emits Finished with the real exit code and an EMPTY diagnostics
list (`unwrap_or_default`), not a single placeholder diagnostic. -/
theorem c4_amended_err_yields_empty_list (stdoutB stderrB : List Nat)
    (pm : Option ProblemMatcher) (matcher : List Char → List RCaptures) (c : Int)
    (herr : read_compiler_messages stdoutB stderrB pm matcher =
      some (Except.error ())) :
    execute_build_outcome stdoutB stderrB pm matcher (some c) =
      some (BuildState.Finished { ret_code := c, messages := [] }) := by
  simp [execute_build_outcome, herr]

/-- C4 witness: the amended statement at the concrete invalid-UTF-8
input. -/
theorem c4_amended_err_yields_empty_list_witness :
    read_compiler_messages [255] [] none (fun _ => []) = some (Except.error ()) ∧
    execute_build_outcome [255] [] none (fun _ => []) (some 0) =
      some (BuildState.Finished { ret_code := 0, messages := [] }) :=
  ⟨rfl, c4_amended_err_yields_empty_list [255] [] none (fun _ => []) 0 rfl⟩

/-- C5 counterexample: a successfully spawned build whose process dies
by a signal (no exit code) produces no BuildState at all — the builder
thread panics on `status.code().unwrap()` — instead of a sentinel
failure value. -/
theorem c5_counterexample_signal_death_crashes :
    execute_build_outcome [] [] none (fun _ => []) none = none ∧
    ∀ bs : BuildState, execute_build_outcome [] [] none (fun _ => []) none ≠ some bs := by
  refine ⟨rfl, fun bs h => ?_⟩
  exact Option.noConfusion h

/-- C5 (amended): the exit status placed into BuildResults is the signed
exit code as-is when present; when the process terminates without an
exit code the executor panics and delivers nothing, rather than mapping
the absence to a sentinel failure. -/
theorem c5_amended_missing_exit_code_panics (stdoutB stderrB : List Nat)
    (pm : Option ProblemMatcher) (matcher : List Char → List RCaptures)
    (msgs : List CompilerMessage)
    (hok : read_compiler_messages stdoutB stderrB pm matcher =
      some (Except.ok msgs)) :
    execute_build_outcome stdoutB stderrB pm matcher none = none ∧
    ∀ c : Int, execute_build_outcome stdoutB stderrB pm matcher (some c) =
      some (BuildState.Finished { ret_code := c, messages := msgs }) := by
  constructor
  · simp [execute_build_outcome, hok]
  · intro c; simp [execute_build_outcome, hok]

/-- C5 witness: the amended statement at a concrete input. -/
theorem c5_amended_missing_exit_code_panics_witness :
    read_compiler_messages [] [] none (fun _ => []) =
      some (Except.ok [{ severity := none, line := none, col := none
                        , file := none, content := [] }]) ∧
    execute_build_outcome [] [] none (fun _ => []) none = none :=
  ⟨rfl, (c5_amended_missing_exit_code_panics [] [] none (fun _ => [])
      [{ severity := none, line := none, col := none, file := none
        , content := [] }] rfl).1⟩

/-- C6 counterexample: in an InProgress state (whose implied diagnostic
list is empty) the per-cycle recomputation leaves a stale selection
some 3 in place instead of clearing it to none. The configuration is
reachable: finish a build with at least 4 messages and selection index
3, press Ctrl+b (state is Finished, so a new build spawns), absorb the
new build's InProgress message, and run the next cycle. -/
theorem c6_counterexample_stale_selection :
    recomputeSelection BuildState.InProgress (some 3) 3 = (some 3, 3) ∧
      (some 3 : Option Nat) ≠ none := by decide

/-- C6 (amended): the invariant holds only under a Finished state: there
the recomputed SelectionIndex is none when that build's message list is
empty, and for a list of length n with 0 < n < 2 to the 31st (the i32
range of the source's cast) and a cursor counter of at least -n it is a
valid index below n; under any non-Finished state the previous
selection is retained unchanged, possibly stale. -/
theorem c6_amended_selection_invariant (results : BuildResults)
    (prev : Option Nat) (c : Int) :
    (results.messages.length = 0 →
      recomputeSelection (BuildState.Finished results) prev c = (none, c)) ∧
    (0 < results.messages.length → results.messages.length < 2 ^ 31 →
      -(results.messages.length : Int) ≤ c →
      ∃ i : Nat, i < results.messages.length ∧
        (recomputeSelection (BuildState.Finished results) prev c).1 = some i) ∧
    (∀ bs : BuildState, (∀ r, bs ≠ BuildState.Finished r) →
      recomputeSelection bs prev c = (prev, c)) := by
  refine ⟨?_, ?_, ?_⟩
  · intro h
    simp [recomputeSelection, h]
  · intro hpos hlt hge
    have hne : ¬ results.messages.length = 0 := Nat.pos_iff_ne_zero.mp hpos
    by_cases hneg : c < 0
    · refine ⟨i32_as_usize ((results.messages.length : Int) + c), ?_, ?_⟩
      · unfold i32_as_usize
        omega
      · simp [recomputeSelection, hne, hneg]
    · refine ⟨i32_as_usize (c % (results.messages.length : Int)), ?_, ?_⟩
      · have h1 : 0 ≤ c % (results.messages.length : Int) :=
          Int.emod_nonneg c (by exact_mod_cast hne)
        have h2 : c % (results.messages.length : Int) < (results.messages.length : Int) :=
          Int.emod_lt_of_pos c (by exact_mod_cast hpos)
        unfold i32_as_usize
        omega
      · simp [recomputeSelection, hne, hneg]
  · intro bs hbs
    cases bs with
    | Finished r => exact absurd rfl (hbs r)
    | NoBuild => rfl
    | InProgress => rfl
    | InvocationFailed => rfl

/-- C6 witness: the in-range leg of the amended invariant at a Finished
build with two messages and cursor counter -1. -/
theorem c6_amended_selection_invariant_witness :
    ∃ i : Nat, i < 2 ∧
      (recomputeSelection
        (BuildState.Finished { ret_code := 0, messages := [blankMsg, blankMsg] })
        none (-1)).1 = some i :=
  (c6_amended_selection_invariant { ret_code := 0, messages := [blankMsg, blankMsg] }
      none (-1)).2.1 (by decide) (by decide) (by decide)

/-- The match loop yields exactly one message per match whenever it
succeeds. -/
theorem extractLoop_length (combined : List Char) (pm : ProblemMatcher) :
    ∀ (caps : List RCaptures) (msgs : List CompilerMessage),
      extractLoop combined pm caps = some msgs → msgs.length = caps.length := by
  intro caps
  induction caps with
  | nil =>
    intro msgs h
    simp only [extractLoop, Option.some.injEq] at h
    simp [← h]
  | cons cap rest ih =>
    intro msgs h
    simp only [extractLoop] at h
    cases h0 : capGet cap 0 with
    | none => rw [h0] at h; simp at h
    | some fullMatch =>
      rw [h0] at h
      simp only [Option.some_bind] at h
      cases h1 : nextMatchEnd combined rest with
      | none => rw [h1] at h; simp at h
      | some mEnd =>
        rw [h1] at h
        simp only [Option.some_bind] at h
        cases h2 : resolveSeverity combined pm cap with
        | none => rw [h2] at h; simp at h
        | some severity =>
          rw [h2] at h
          simp only [Option.some_bind] at h
          cases h3 : extractLoop combined pm rest with
          | none => rw [h3] at h; simp at h
          | some msgs2 =>
            rw [h3] at h
            simp only [Option.some_bind, Option.some.injEq] at h
            subst h
            simp [ih msgs2 h3]
/-- One-step unfolding of the match loop on a cons, keeping the
recursive call folded. -/
theorem extractLoop_cons (combined : List Char) (pm : ProblemMatcher)
    (cap : RCaptures) (rest : List RCaptures) :
    extractLoop combined pm (cap :: rest) =
      (capGet cap 0).bind fun fullMatch =>
      (nextMatchEnd combined rest).bind fun mEnd =>
      (resolveSeverity combined pm cap).bind fun severity =>
      (extractLoop combined pm rest).bind fun msgs =>
      some ({ severity := severity
            , line := extractNumField combined pm.line_group cap
            , col := extractNumField combined pm.col_group cap
            , file := extractFileField combined pm.file_group cap
            , content := sliceStr combined fullMatch.start mEnd } :: msgs) := rfl

/-- When the match loop succeeds, the contents of the produced messages
are exactly the next-match-start slices of the input determined by the
group-0 start offsets. -/
theorem extractLoop_contents (combined : List Char) (pm : ProblemMatcher) :
    ∀ (caps : List RCaptures) (spans : List Span) (msgs : List CompilerMessage),
      caps.map (fun c => capGet c 0) = spans.map some →
      extractLoop combined pm caps = some msgs →
      msgs.map CompilerMessage.content =
        specContents combined (spans.map Span.start) := by
  intro caps
  induction caps with
  | nil =>
    intro spans msgs h1 h2
    have hsp : spans = [] := by cases spans <;> simp_all
    subst hsp
    simp only [extractLoop, Option.some.injEq] at h2
    simp [← h2, specContents]
  | cons cap rest ih =>
    intro spans msgs h1 h2
    cases spans with
    | nil => simp at h1
    | cons s ss =>
      simp only [List.map_cons, List.cons.injEq] at h1
      obtain ⟨h0, hrest⟩ := h1
      rw [extractLoop_cons, h0] at h2
      simp only [Option.some_bind] at h2
      cases rest with
      | nil =>
        have hss : ss = [] := by cases ss <;> simp_all
        subst hss
        have hEnd : nextMatchEnd combined ([] : List RCaptures) =
            some combined.length := rfl
        rw [hEnd] at h2
        simp only [Option.some_bind] at h2
        cases hSev : resolveSeverity combined pm cap with
        | none => rw [hSev] at h2; simp at h2
        | some severity =>
          rw [hSev] at h2
          simp only [Option.some_bind, extractLoop, Option.some.injEq] at h2
          subst h2
          simp [specContents]
      | cons cap2 rest2 =>
        cases ss with
        | nil => simp at hrest
        | cons s2 ss2 =>
          simp only [List.map_cons, List.cons.injEq] at hrest
          obtain ⟨h02, hrest2⟩ := hrest
          have hEnd : nextMatchEnd combined (cap2 :: rest2) = some s2.start := by
            simp [nextMatchEnd, h02]
          rw [hEnd] at h2
          simp only [Option.some_bind] at h2
          cases hSev : resolveSeverity combined pm cap with
          | none => rw [hSev] at h2; simp at h2
          | some severity =>
            rw [hSev] at h2
            simp only [Option.some_bind] at h2
            cases hRec : extractLoop combined pm (cap2 :: rest2) with
            | none => rw [hRec] at h2; simp at h2
            | some msgs2 =>
              rw [hRec] at h2
              simp only [Option.some_bind, Option.some.injEq] at h2
              subst h2
              have htail := ih (s2 :: ss2) msgs2 (by simp [h02, hrest2]) hRec
              simp only [List.map_cons, specContents]
              simp only [List.map_cons] at htail
              rw [htail]

/-- C7: for a matcher whose pattern matches at increasing start offsets,
a successful extraction returns one diagnostic per match, in
left-to-right order, and the content of diagnostic i is exactly the
input sliced from offset i to offset i+1 (to the end of the input for
the last diagnostic) — the spec's next-match-start rule, stated by
specContents. -/
theorem c7_contents_next_match_start (combined : List Char) (pm : ProblemMatcher)
    (caps : List RCaptures) (spans : List Span) (msgs : List CompilerMessage)
    (hspans : caps.map (fun c => capGet c 0) = spans.map some)
    (_hmono : List.Chain' (fun a b => a < b) (spans.map Span.start))
    (hok : extractLoop combined pm caps = some msgs) :
    msgs.length = caps.length ∧
      msgs.map CompilerMessage.content =
        specContents combined (spans.map Span.start) :=
  ⟨extractLoop_length combined pm caps msgs hok,
   extractLoop_contents combined pm caps spans msgs hspans hok⟩

/-- C7 witness: a two-match extraction over the input "ab", matches at
offsets 0 and 1; the contents are the slices "a" (offset 0 up to the
next match start 1) and "b" (offset 1 to the end). -/
theorem c7_contents_next_match_start_witness :
    ([{ severity := none, line := none, col := none, file := none
      , content := ['a'] },
      { severity := none, line := none, col := none, file := none
      , content := ['b'] }] : List CompilerMessage).length = 2 ∧
    ([{ severity := none, line := none, col := none, file := none
      , content := ['a'] },
      { severity := none, line := none, col := none, file := none
      , content := ['b'] }] : List CompilerMessage).map CompilerMessage.content =
      specContents ['a', 'b'] ([Span.mk 0 1, Span.mk 1 2].map Span.start) := by
  have h := c7_contents_next_match_start ['a', 'b'] pmPlain
    [[some (Span.mk 0 1)], [some (Span.mk 1 2)]] [Span.mk 0 1, Span.mk 1 2]
    [{ severity := none, line := none, col := none, file := none
      , content := ['a'] },
      { severity := none, line := none, col := none, file := none
      , content := ['b'] }]
    (by decide) (by simp [List.chain'_cons, List.chain'_singleton]) (by decide)
  simpa using h
